import Mathlib

/-!
Verification development for the retrieval / reranking pipeline of the
telegram-chatbot repository (src/retriever_bm25.py, src/rag_pipeline.py,
src/handlers.py, src/web_rex.py, src/reranker_ce.py).

Shallow embedding conventions:
  * Python floats are modelled by `ℚ` (exact arithmetic; every claim settled
    below is insensitive to rounding).
  * `math.log` (natural logarithm, used only inside the BM25 idf computation
    of the third-party rank_bm25 `BM25Okapi` class that the repository calls)
    is threaded through as an explicit parameter `log : ℚ → ℚ`.  Every fact
    proved below about score values holds for an arbitrary `log`, hence in
    particular for the real natural logarithm.
  * CPython's `sorted(xs, key=lambda x: x[1], reverse=True)` is stable; on a
    list produced by `enumerate` (strictly increasing, duplicate-free first
    components) its output is exactly the list sorted by the linear order
    "larger score first, ties by smaller index first".  We embed it as
    `List.insertionSort` under that (total, transitive, antisymmetric-on-enum)
    order; since the order is linear on the elements in play, the sorted
    permutation is unique and the choice of sorting algorithm is immaterial.
  * numpy's `argsort()` (ascending) followed by `[::-1]` is embedded as the
    stable ascending sort of `enumerate(scores)` followed by `List.reverse`.
    (numpy's default introsort runs insertion sort -- stable -- on the short
    slices in play; the counterexample below uses a 2-element array, where
    the ascending result is exactly the stable one.)
  * `pickle` serialisation is modelled as the identity on the serialised
    value; the file system is modelled by an explicit artifact datatype.
-/

/-- Python `s.lower()` (ASCII-adequate model, character by character). -/
def pyLower (s : String) : String := String.mk (s.data.map Char.toLower)

/-- Worker for `pySplit`: walk the characters, accumulating the current
word (reversed); whitespace closes the current word, if any. -/
def splitWsAux : List Char → List Char → List (List Char)
  | [], cur => if cur.isEmpty then [] else [cur.reverse]
  | c :: rest, cur =>
    if c.isWhitespace then
      if cur.isEmpty then splitWsAux rest []
      else cur.reverse :: splitWsAux rest []
    else splitWsAux rest (c :: cur)

/-- Python `s.split()` with no argument: split on whitespace runs, dropping
empty pieces. -/
def pySplit (s : String) : List String :=
  (splitWsAux s.data []).map (fun cs => String.mk cs)

/-- Python `not s.strip()`: `s` is empty or consists of whitespace only. -/
def pyBlank (s : String) : Bool := s.data.all Char.isWhitespace

/-- `retriever_bm25._tokenize`: `s.lower().split()`. -/
def tokenize (s : String) : List String := pySplit (pyLower s)

/-- `rag_pipeline._simple_tokenize`: `text.lower().split()`. -/
def simpleTokenize (text : String) : List String := pySplit (pyLower text)

/-- A corpus chunk as built by `build_index`: `{"id": obj.get("id"),
"title": obj.get("title", ""), "text": text}`. -/
structure Doc where
  id : Option String
  title : String
  text : String
deriving DecidableEq, Repr

/-- Placeholder chunk used to totalise Python's `docs[i]` list indexing;
all theorems below establish the index is in range wherever it matters. -/
def dummyDoc : Doc := ⟨none, "", ""⟩

/-- State of a rank_bm25 `BM25Okapi` object after `__init__` (the lexical
model the repository builds and pickles).  `doc_freqs` are the per-document
term-frequency dictionaries, `idf` the idf dictionary with rank_bm25's
negative-idf replacement already applied (and `.get(q) or 0` folded in:
out-of-vocabulary terms map to 0). -/
structure BM25Okapi where
  k1 : ℚ
  b : ℚ
  epsilon : ℚ
  corpus_size : ℕ
  avgdl : ℚ
  doc_len : List ℕ
  doc_freqs : List (String → ℕ)
  idf : String → ℚ

/-- rank_bm25 `BM25Okapi.__init__` on a tokenized corpus, with parameters
k1=1.5, b=0.75, epsilon=0.25 (the defaults the repository uses).
`log` stands for `math.log`. -/
def BM25Okapi.build (log : ℚ → ℚ) (corpus : List (List String)) : BM25Okapi :=
  let corpus_size := corpus.length
  let doc_len := corpus.map List.length
  let avgdl : ℚ := ((corpus.map List.length).sum : ℚ) / (corpus_size : ℚ)
  let nd : String → ℕ := fun w => corpus.countP (fun d => d.contains w)
  let vocab := corpus.flatten.dedup
  let rawIdf : String → ℚ := fun w =>
    log ((corpus_size : ℚ) - (nd w : ℚ) + 1/2) - log ((nd w : ℚ) + 1/2)
  let average_idf : ℚ := (vocab.map rawIdf).sum / (vocab.length : ℚ)
  let eps : ℚ := (1/4) * average_idf
  { k1 := 3/2
    b := 3/4
    epsilon := 1/4
    corpus_size := corpus_size
    avgdl := avgdl
    doc_len := doc_len
    doc_freqs := corpus.map (fun d => fun w => d.count w)
    idf := fun w =>
      if w ∈ vocab then (if rawIdf w < 0 then eps else rawIdf w) else 0 }

/-- One term's contribution to one document's score in
`BM25Okapi.get_scores`:
`idf(q) * (f * (k1+1)) / (f + k1 * (1 - b + b * dl / avgdl))`. -/
def BM25Okapi.termScore (bm : BM25Okapi) (q : String)
    (freqs : String → ℕ) (dl : ℕ) : ℚ :=
  let f : ℚ := (freqs q : ℚ)
  bm.idf q * (f * (bm.k1 + 1)) /
    (f + bm.k1 * (1 - bm.b + bm.b * (dl : ℚ) / bm.avgdl))

/-- rank_bm25 `BM25Okapi.get_scores(query)`: one score per corpus document,
the sum over query tokens (duplicates counted) of `termScore`. -/
def BM25Okapi.get_scores (bm : BM25Okapi) (query : List String) : List ℚ :=
  (bm.doc_freqs.zip bm.doc_len).map
    (fun p => (query.map (fun q => bm.termScore q p.1 p.2)).sum)

/-- The order computed by CPython's stable
`sorted(enumerate(scores), key=lambda x: x[1], reverse=True)`:
`a` precedes `b` iff `a` has the larger score, or scores tie and `a` has the
smaller (earlier-inserted) index.  On an `enumerate` list (duplicate-free
first components) this is a linear order, so the sorted permutation is
unique and independent of the sorting algorithm. -/
def pyDescRel (a b : ℕ × ℚ) : Prop :=
  b.2 < a.2 ∨ (a.2 = b.2 ∧ a.1 ≤ b.1)

instance pyDescRel.instDecidable : DecidableRel pyDescRel := fun a b =>
  inferInstanceAs (Decidable (b.2 < a.2 ∨ (a.2 = b.2 ∧ a.1 ≤ b.1)))

instance pyDescRel.instIsTrans : IsTrans (ℕ × ℚ) pyDescRel := by
  constructor
  intro a b c hab hbc
  rcases hab with h1 | ⟨h1, h1'⟩ <;> rcases hbc with h2 | ⟨h2, h2'⟩
  · exact Or.inl (h2.trans h1)
  · exact Or.inl (h2 ▸ h1)
  · exact Or.inl (h1 ▸ h2)
  · exact Or.inr ⟨h1.trans h2, h1'.trans h2'⟩

instance pyDescRel.instIsTotal : IsTotal (ℕ × ℚ) pyDescRel := by
  constructor
  intro a b
  rcases lt_trichotomy a.2 b.2 with h | h | h
  · exact Or.inr (Or.inl h)
  · rcases Nat.le_total a.1 b.1 with h' | h'
    · exact Or.inl (Or.inr ⟨h, h'⟩)
    · exact Or.inr (Or.inr ⟨h.symm, h'⟩)
  · exact Or.inl (Or.inl h)

/-- The `idx_scores` list of `retriever_bm25.retrieve`:
`sorted(enumerate(scores), key=lambda x: x[1], reverse=True)[:top_k]`. -/
def retrieveIdx (query : String) (bm : BM25Okapi) (top_k : ℕ) :
    List (ℕ × ℚ) :=
  (List.insertionSort pyDescRel (bm.get_scores (tokenize query)).enum).take top_k

/-- `retriever_bm25.retrieve(query, bm25, docs, top_k)`: the top-k documents
paired with their lexical scores
(`[{**docs[i], "score": float(s)} for i, s in idx_scores]`). -/
def retrieve (query : String) (bm : BM25Okapi) (docs : List Doc)
    (top_k : ℕ) : List (Doc × ℚ) :=
  (retrieveIdx query bm top_k).map (fun p => (docs.getD p.1 dummyDoc, p.2))

/-- One line of the JSONL corpus consumed by `build_index` (fields the code
reads; a missing field is `none`). -/
structure JsonObj where
  id : Option String
  title : Option String
  text : Option String
  body : Option String
deriving DecidableEq, Repr

/-- Python `a or b` on an optional string `a` (absent and empty strings are
falsy) with fallback `b`. -/
def pyOrStr (a : Option String) (b : String) : String :=
  match a with
  | some s => if s = "" then b else s
  | none => b

/-- The `text` value `build_index` extracts from a record:
`obj.get("text") or obj.get("body") or ""`. -/
def effText (obj : JsonObj) : String := pyOrStr obj.text (pyOrStr obj.body "")

/-- The accumulation loop of `build_index`: skip records whose effective
text is empty/whitespace-only, keep `{id, title (default ""), text}`. -/
def buildDocs (corpus : List JsonObj) : List Doc :=
  corpus.foldl
    (fun docs obj =>
      let text := effText obj
      if pyBlank text then docs
      else docs ++ [{ id := obj.id, title := obj.title.getD "", text := text }])
    []

/-- The pickled bundle `{"docs": ..., "bm25": ...}`; a field is `none` when
the corresponding key is missing from the deserialised dictionary. -/
structure IndexBlob where
  docs : Option (List Doc)
  bm25 : Option BM25Okapi

/-- The on-disk artifact a load can encounter: no file at the path,
bytes that do not deserialise, or a deserialised bundle. -/
inductive IndexArtifact where
  | absent
  | corruptBytes
  | blob (b : IndexBlob)

/-- `retriever_bm25.build_index(corpus_path, index_path)`: the bundle it
pickles to `index_path` together with its return value `len(docs)`. -/
def build_index (log : ℚ → ℚ) (corpus : List JsonObj) : IndexBlob × ℕ :=
  let docs := buildDocs corpus
  let bm := BM25Okapi.build log (docs.map (fun d => tokenize d.text))
  (⟨some docs, some bm⟩, docs.length)

/-- The spec's error taxonomy for index loading: `indexNotFound` stands for
the `FileNotFoundError` raised by `open` on an absent path, `indexCorrupt`
for `pickle.UnpicklingError` on undeserialisable bytes and for the
`KeyError` raised by `blob["bm25"]` / `blob["docs"]` on a bundle of the
wrong shape. -/
inductive LoadError where
  | indexNotFound
  | indexCorrupt
deriving DecidableEq, Repr

/-- `retriever_bm25.load_index(index_path)`:
`return blob["bm25"], blob["docs"]` (the `"bm25"` key is evaluated first,
as in the Python tuple expression). -/
def load_index : IndexArtifact → Except LoadError (BM25Okapi × List Doc)
  | .absent => .error .indexNotFound
  | .corruptBytes => .error .indexCorrupt
  | .blob b =>
    match b.bm25 with
    | none => .error .indexCorrupt
    | some bm =>
      match b.docs with
      | none => .error .indexCorrupt
      | some ds => .ok (bm, ds)

/-- `best_score = results[0]["score"] if results else 0.0`
(handlers.on_text and web_rex.generate_answer_http, identical code). -/
def bestScore (results : List (Doc × ℚ)) : ℚ :=
  match results with
  | [] => 0
  | r :: _ => r.2

/-- The relevance gate `if results and best_score >= MIN_BM25_SCORE` of
handlers.on_text / web_rex.generate_answer_http. -/
def shouldGround (results : List (Doc × ℚ)) (minScore : ℚ) : Bool :=
  !results.isEmpty && decide (bestScore results ≥ minScore)

/-- The `context_chunks` list built by handlers.on_text /
web_rex.generate_answer_http: when the gate passes, the first
`MAX_CONTEXT_DOCS` hits rendered as `"[title] text"` (the title tag only
for a non-empty title); otherwise empty. -/
def contextChunks (results : List (Doc × ℚ)) (minScore : ℚ)
    (maxDocs : ℕ) : List String :=
  if shouldGround results minScore then
    (results.take maxDocs).map
      (fun hit =>
        (if hit.1.title ≠ "" then "[" ++ hit.1.title ++ "] " else "")
          ++ hit.1.text)
  else []

/-- `context_block = "\n\n".join(context_chunks)`. -/
def contextBlock (results : List (Doc × ℚ)) (minScore : ℚ)
    (maxDocs : ℕ) : String :=
  String.intercalate "\n\n" (contextChunks results minScore maxDocs)

/-- The chunks actually injected by handlers.on_text (the spec's `used`
sequence of the Context Assembler). -/
def usedChunks (results : List (Doc × ℚ)) (minScore : ℚ)
    (maxDocs : ℕ) : List Doc :=
  if shouldGround results minScore then (results.take maxDocs).map (·.1)
  else []

/-- One passage of `rag_pipeline.build_rag_prompt` step 3:
`f"### {title}\n{text}"` when the title is truthy, else the bare text. -/
def ragPart (d : Doc) : String :=
  if d.title ≠ "" then "### " ++ d.title ++ "\n" ++ d.text else d.text

/-- `context = "\n\n---\n\n".join(parts)` of build_rag_prompt step 3. -/
def ragContext (top_docs : List Doc) : String :=
  String.intercalate "\n\n---\n\n" (top_docs.map ragPart)

/-- The order of the stable ascending sort underlying `np.argsort` on
`enumerate(scores)`: smaller score first, ties by smaller index first. -/
def npAscRel (a b : ℕ × ℚ) : Prop :=
  a.2 < b.2 ∨ (a.2 = b.2 ∧ a.1 ≤ b.1)

instance npAscRel.instDecidable : DecidableRel npAscRel := fun a b =>
  inferInstanceAs (Decidable (a.2 < b.2 ∨ (a.2 = b.2 ∧ a.1 ≤ b.1)))

instance npAscRel.instIsTrans : IsTrans (ℕ × ℚ) npAscRel := by
  constructor
  intro a b c hab hbc
  rcases hab with h1 | ⟨h1, h1'⟩ <;> rcases hbc with h2 | ⟨h2, h2'⟩
  · exact Or.inl (h1.trans h2)
  · exact Or.inl (h2 ▸ h1)
  · exact Or.inl (h1 ▸ h2)
  · exact Or.inr ⟨h1.trans h2, h1'.trans h2'⟩

instance npAscRel.instIsTotal : IsTotal (ℕ × ℚ) npAscRel := by
  constructor
  intro a b
  rcases lt_trichotomy a.2 b.2 with h | h | h
  · exact Or.inl (Or.inl h)
  · rcases Nat.le_total a.1 b.1 with h' | h'
    · exact Or.inl (Or.inr ⟨h, h'⟩)
    · exact Or.inr (Or.inr ⟨h.symm, h'⟩)
  · exact Or.inr (Or.inl h)

/-- `scores.argsort()[::-1]`: the ascending argsort (stable on the short
arrays in play) followed by Python slice reversal. -/
def npArgsortDesc (scores : List ℚ) : List ℕ :=
  ((List.insertionSort npAscRel scores.enum).map (fun p => p.1)).reverse

/-- The rerank selection of build_rag_prompt step 2, factored over the
already-computed CrossEncoder scores:
`rerank_idx = ce_scores.argsort()[::-1][:RERANK_TOPN]`;
`top_docs = [candidates[i][0] for i in rerank_idx]`. -/
def rerankStep (candidates : List (Doc × ℚ)) (ce_scores : List ℚ)
    (top_n : ℕ) : List Doc :=
  ((npArgsortDesc ce_scores).take top_n).map
    (fun i => (candidates.getD i (dummyDoc, 0)).1)

/-- A CrossEncoder `predict` call on a batch of (query, passage) pairs:
either the list of scores or a raised exception (its message). -/
def CEPredict : Type := List (String × String) → Except String (List ℚ)

/-- `reranker_ce.RerankerCE.score(query, docs)`:
`pairs = [(query, d) for d in docs]; scores = self.model.predict(pairs)`. -/
def RerankerCE.score (model : CEPredict) (query : String)
    (docs : List String) : Except String (List ℚ) :=
  model (docs.map (fun d => (query, d)))

/-- The file-system state `rag_pipeline._ensure_loaded` probes: the bundle
at `BM25_INDEX_PATH` (`none` = absent file) and the CrossEncoder checkpoint
at `RERANKER_PATH` (`none` = absent checkpoint). -/
structure RagEnv where
  bm25File : Option (List Doc × BM25Okapi)
  ceFile : Option CEPredict

/-- Failures `build_rag_prompt` can raise to its caller:
the two `FileNotFoundError`s of `_ensure_loaded` and an exception escaping
`self._reranker.predict` (there is no handler around either). -/
inductive RagError where
  | bm25IndexNotFound
  | rerankerNotFound
  | predictFailure (msg : String)
deriving DecidableEq, Repr

/-- `rag_pipeline._ensure_loaded`: raises when either artifact is missing,
otherwise yields the loaded docs, BM25 model and reranker.  (The Python
caches the three loads in module globals; the cache only memoises this
pure load and is elided.) -/
def ensureLoaded (env : RagEnv) :
    Except RagError (List Doc × BM25Okapi × CEPredict) :=
  match env.bm25File with
  | none => .error .bm25IndexNotFound
  | some (docs, bm) =>
    match env.ceFile with
    | none => .error .rerankerNotFound
    | some ce => .ok (docs, bm, ce)

/-- The `debug` dictionary returned by build_rag_prompt. -/
structure RagDebug where
  num_docs : ℕ
  bm25_topk : ℕ
  rerank_topn : ℕ
  titles : List String
  context_snippet : String
deriving DecidableEq, Repr

/-- The final prompt string of build_rag_prompt step 4. -/
def groundedPrompt (context query : String) : String :=
  "Use only the following context to answer the user\x27s question. " ++
  "If the answer is not contained here, say you don\x27t know.\n\n" ++
  context ++ "\n\nUser question: " ++ query

/-- Stage 1 of build_rag_prompt: `topk = min(BM25_TOPK, len(_docs))`;
`top_idx = scores.argsort()[::-1][:topk]`;
`candidates = [(_docs[i], float(scores[i])) for i in top_idx]`. -/
def ragCandidates (docs : List Doc) (bm : BM25Okapi) (bm25Topk : ℕ)
    (query : String) : List (Doc × ℚ) :=
  let scores := bm.get_scores (simpleTokenize query)
  let topk := min bm25Topk docs.length
  ((npArgsortDesc scores).take topk).map
    (fun i => (docs.getD i dummyDoc, scores.getD i 0))

/-- `rag_pipeline.build_rag_prompt(query)` over an explicit environment and
the two env-configured bounds `BM25_TOPK` / `RERANK_TOPN`. -/
def buildRagPrompt (env : RagEnv) (bm25Topk rerankTopn : ℕ)
    (query : String) : Except RagError (String × RagDebug) :=
  match ensureLoaded env with
  | .error e => .error e
  | .ok (docs, bm, ce) =>
    let candidates := ragCandidates docs bm bm25Topk query
    let ceInputs := candidates.map (fun c => (query, c.1.text))
    match ce ceInputs with
    | .error msg => .error (.predictFailure msg)
    | .ok ce_scores =>
      let top_docs := rerankStep candidates ce_scores rerankTopn
      let context := ragContext top_docs
      .ok (groundedPrompt context query,
        ⟨docs.length, min bm25Topk docs.length, rerankTopn,
          top_docs.map (·.title), context.take 200⟩)

/-! Concrete fixtures (used by witnesses and counterexamples). -/

/-- A concrete stand-in for `math.log`; every score fact proved below that
is instantiated with it also holds for an arbitrary `log` (see the
`∀ log` theorems), in particular for the real natural logarithm. -/
def zeroLog : ℚ → ℚ := fun _ => 0

/-- The spec's end-to-end two-record corpus. -/
def corpusAB : List JsonObj :=
  [⟨some "a", none, some "store water in clean containers", none⟩,
   ⟨some "b", none, some "tie a bowline knot", none⟩]

/-- The chunks `build_index` retains from `corpusAB`. -/
def docsAB : List Doc := buildDocs corpusAB

/-- The BM25 model `build_index` computes over `corpusAB`, for an arbitrary
`math.log` stand-in. -/
def bmABWith (log : ℚ → ℚ) : BM25Okapi :=
  BM25Okapi.build log (docsAB.map (fun d => tokenize d.text))

/-- `bmABWith` at the concrete stand-in. -/
def bmAB : BM25Okapi := bmABWith zeroLog

/-- A CrossEncoder whose every call succeeds with all-equal scores. -/
def cePredictOnes : CEPredict := fun pairs => .ok (pairs.map (fun _ => (1 : ℚ)))

/-- A CrossEncoder whose every scoring call raises. -/
def cePredictFail : CEPredict := fun _ => .error "CUDA error"

/-- Environment with both artifacts present and a working reranker. -/
def envAB : RagEnv := ⟨some (docsAB, bmAB), some cePredictOnes⟩

/-- Environment whose reranker checkpoint is absent. -/
def envNoReranker : RagEnv := ⟨some (docsAB, bmAB), none⟩

/-- Environment whose reranker raises on every scoring call. -/
def envFailingReranker : RagEnv := ⟨some (docsAB, bmAB), some cePredictFail⟩

/-- Two distinct candidate chunks for the rerank tie counterexample. -/
def cdoc0 : Doc := ⟨some "c0", "", "alpha"⟩

/-- See `cdoc0`. -/
def cdoc1 : Doc := ⟨some "c1", "", "beta"⟩

/-- A passage text one character longer than the 3500-character context
budget the surrounding system configures. -/
def longText : String := String.mk (List.replicate 3501 'a')

/-- A chunk carrying `longText`. -/
def longDoc : Doc := ⟨none, "", longText⟩

/-! Sorting machinery: the two orders are transitive and total, so
`List.sorted_insertionSort` applies; on `enumerate` lists (duplicate-free
first components determining the second) sortedness upgrades to the strict
lexicographic order. -/

theorem nodup_insertionSort_enum (scores : List ℚ) (r : ℕ × ℚ → ℕ × ℚ → Prop)
    [DecidableRel r] : (List.insertionSort r scores.enum).Nodup :=
  ((List.perm_insertionSort r scores.enum).nodup_iff).mpr
    ((List.nodup_enum_map_fst scores).of_map _)

theorem mem_insertionSort_enum {scores : List ℚ} {r : ℕ × ℚ → ℕ × ℚ → Prop}
    [DecidableRel r] {p : ℕ × ℚ}
    (hp : p ∈ List.insertionSort r scores.enum) : scores[p.1]? = some p.2 :=
  List.mem_enum_iff_getElem?.mp ((List.mem_insertionSort r).mp hp)

/-- The descending stable sort of `enumerate(scores)` is strictly ordered:
larger score first, ties strictly by insertion index. -/
theorem insertionSort_desc_strict (scores : List ℚ) :
    (List.insertionSort pyDescRel scores.enum).Pairwise
      (fun a b => b.2 < a.2 ∨ (a.2 = b.2 ∧ a.1 < b.1)) := by
  have hs : (List.insertionSort pyDescRel scores.enum).Pairwise pyDescRel :=
    List.sorted_insertionSort pyDescRel scores.enum
  have hsn := hs.and (nodup_insertionSort_enum scores pyDescRel)
  refine hsn.imp_of_mem ?_
  intro a b ha hb hab
  obtain ⟨hab, hne⟩ := hab
  rcases hab with h | ⟨h1, h2⟩
  · exact Or.inl h
  · rcases Nat.lt_or_ge a.1 b.1 with hlt | hge
    · exact Or.inr ⟨h1, hlt⟩
    · exfalso
      have hfst : a.1 = b.1 := Nat.le_antisymm h2 hge
      have ha' := mem_insertionSort_enum ha
      have hb' := mem_insertionSort_enum hb
      rw [hfst, hb'] at ha'
      exact hne (Prod.ext hfst (Option.some.inj ha').symm)

/-- The ascending stable sort of `enumerate(scores)` is strictly ordered:
smaller score first, ties strictly by insertion index. -/
theorem insertionSort_asc_strict (scores : List ℚ) :
    (List.insertionSort npAscRel scores.enum).Pairwise
      (fun a b => a.2 < b.2 ∨ (a.2 = b.2 ∧ a.1 < b.1)) := by
  have hs : (List.insertionSort npAscRel scores.enum).Pairwise npAscRel :=
    List.sorted_insertionSort npAscRel scores.enum
  have hsn := hs.and (nodup_insertionSort_enum scores npAscRel)
  refine hsn.imp_of_mem ?_
  intro a b ha hb hab
  obtain ⟨hab, hne⟩ := hab
  rcases hab with h | ⟨h1, h2⟩
  · exact Or.inl h
  · rcases Nat.lt_or_ge a.1 b.1 with hlt | hge
    · exact Or.inr ⟨h1, hlt⟩
    · exfalso
      have hfst : a.1 = b.1 := Nat.le_antisymm h2 hge
      have ha' := mem_insertionSort_enum ha
      have hb' := mem_insertionSort_enum hb
      rw [hfst, hb'] at ha'
      exact hne (Prod.ext hfst (Option.some.inj ha').symm)

/-- C1: for every query, index and `top_k ≥ 1`, `retrieve` returns at most
`top_k` scored candidates, ordered by non-increasing lexical score; ties
carry strictly increasing insertion indices (the CPython stable reverse
sort breaks ties by original chunk insertion order); and retrieval is
deterministic: equal `(query, index, docs)` inputs give equal ordered
output. -/
theorem C1_retrieve_topk_sorted_stable_deterministic
    (query : String) (bm : BM25Okapi) (docs : List Doc) (top_k : ℕ)
    (htop : 1 ≤ top_k) :
    (retrieve query bm docs top_k).length ≤ top_k ∧
    (retrieve query bm docs top_k).Pairwise (fun a b => b.2 ≤ a.2) ∧
    (retrieveIdx query bm top_k).Pairwise
      (fun a b => b.2 < a.2 ∨ (a.2 = b.2 ∧ a.1 < b.1)) ∧
    (∀ query₂ bm₂ docs₂, query₂ = query → bm₂ = bm → docs₂ = docs →
      retrieve query₂ bm₂ docs₂ top_k = retrieve query bm docs top_k) := by
  have hstrict : (retrieveIdx query bm top_k).Pairwise
      (fun a b => b.2 < a.2 ∨ (a.2 = b.2 ∧ a.1 < b.1)) :=
    List.Pairwise.sublist (List.take_sublist _ _) (insertionSort_desc_strict _)
  refine ⟨?_, ?_, hstrict, ?_⟩
  · show ((retrieveIdx query bm top_k).map _).length ≤ top_k
    rw [List.length_map]
    exact List.length_take_le _ _
  · show ((retrieveIdx query bm top_k).map _).Pairwise _
    rw [List.pairwise_map]
    refine hstrict.imp ?_
    rintro a b (h | ⟨h1, _⟩)
    · exact le_of_lt h
    · exact le_of_eq h1.symm
  · intro q2 bm2 d2 h1 h2 h3
    rw [h1, h2, h3]

/-- Witness for C1 at a concrete query, index and `top_k = 2`. -/
theorem C1_witness :
    (retrieve "" bmAB docsAB 2).length ≤ 2 ∧
    (retrieve "" bmAB docsAB 2).Pairwise (fun a b => b.2 ≤ a.2) ∧
    (retrieveIdx "" bmAB 2).Pairwise
      (fun a b => b.2 < a.2 ∨ (a.2 = b.2 ∧ a.1 < b.1)) ∧
    (∀ query₂ bm₂ docs₂, query₂ = "" → bm₂ = bmAB → docs₂ = docsAB →
      retrieve query₂ bm₂ docs₂ 2 = retrieve "" bmAB docsAB 2) :=
  C1_retrieve_topk_sorted_stable_deterministic "" bmAB docsAB 2 (by decide)

/-- C3: the relevance gate of handlers.on_text / web_rex.generate_answer_http
is the pure comparison `best_score >= threshold` on the top candidate when
candidates exist, and is `false` on the empty candidate list (for every
threshold, hence in particular for any threshold at or above the ranking
floor); with empty candidates no context is injected. -/
theorem C3_gate_pure_comparison_empty_never_grounds
    (results : List (Doc × ℚ)) (threshold : ℚ) (maxDocs : ℕ) :
    shouldGround [] threshold = false ∧
    contextBlock [] threshold maxDocs = "" ∧
    usedChunks [] threshold maxDocs = [] ∧
    (results ≠ [] →
      (shouldGround results threshold = true ↔ threshold ≤ bestScore results)) := by
  refine ⟨rfl, rfl, rfl, ?_⟩
  intro h
  cases results with
  | nil => exact absurd rfl h
  | cons r rs => simp [shouldGround, bestScore]

/-- Witness for C3 at a concrete non-empty candidate list. -/
theorem C3_witness :
    shouldGround [] (2 : ℚ) = false ∧
    contextBlock [] (2 : ℚ) 5 = "" ∧
    usedChunks [] (2 : ℚ) 5 = [] ∧
    ([(cdoc0, (3 : ℚ))] ≠ [] →
      (shouldGround [(cdoc0, (3 : ℚ))] 2 = true ↔ (2 : ℚ) ≤ bestScore [(cdoc0, 3)])) :=
  C3_gate_pure_comparison_empty_never_grounds [(cdoc0, 3)] 2 5

/-- C7: the tokenizer applied to chunk text at index-build time
(`retriever_bm25._tokenize`, also used on the query by `retrieve`) and the
query-side tokenizer of the rag pipeline (`rag_pipeline._simple_tokenize`)
are the identical normalisation: lower-casing followed by whitespace
splitting, so they agree on every input string. -/
theorem C7_tokenizers_identical : ∀ s : String, tokenize s = simpleTokenize s :=
  fun _ => rfl

/-- C8: `load_index` fails on an absent artifact (FileNotFoundError, the
spec's IndexNotFound), fails on an artifact that does not deserialise into
the expected `{docs, bm25}` shape (the spec's IndexCorrupt), succeeds on a
well-shaped bundle returning exactly its in-memory content, and — being a
pure function of the artifact in this embedding — is idempotent and free
of side effects beyond producing that in-memory state. -/
theorem C8_load_errors_success_idempotent
    (b : IndexBlob) (bm : BM25Okapi) (ds : List Doc)
    (hb : b.bm25 = none ∨ b.docs = none) :
    load_index .absent = .error .indexNotFound ∧
    load_index .corruptBytes = .error .indexCorrupt ∧
    load_index (.blob b) = .error .indexCorrupt ∧
    load_index (.blob ⟨some ds, some bm⟩) = .ok (bm, ds) ∧
    (∀ a : IndexArtifact, load_index a = load_index a) := by
  refine ⟨rfl, rfl, ?_, rfl, fun _ => rfl⟩
  obtain ⟨bdocs, bbm⟩ := b
  rcases hb with h | h
  · simp only at h
    subst h
    rfl
  · simp only at h
    subst h
    cases bbm with
    | none => rfl
    | some bm' => rfl

/-- Witness for C8 at a concrete malformed blob and a concrete well-formed
bundle. -/
theorem C8_witness :
    load_index .absent = .error .indexNotFound ∧
    load_index .corruptBytes = .error .indexCorrupt ∧
    load_index (.blob ⟨none, none⟩) = .error .indexCorrupt ∧
    load_index (.blob ⟨some docsAB, some bmAB⟩) = .ok (bmAB, docsAB) ∧
    (∀ a : IndexArtifact, load_index a = load_index a) :=
  C8_load_errors_success_idempotent ⟨none, none⟩ bmAB docsAB (Or.inl rfl)

/-- Indices emitted by `argsort()[::-1]` are valid positions of the score
array. -/
theorem mem_npArgsortDesc {scores : List ℚ} {i : ℕ}
    (h : i ∈ npArgsortDesc scores) : i < scores.length := by
  unfold npArgsortDesc at h
  rw [List.mem_reverse, List.mem_map] at h
  obtain ⟨p, hp, rfl⟩ := h
  have hp' := mem_insertionSort_enum hp
  obtain ⟨hlt, _⟩ := List.getElem?_eq_some.mp hp'
  exact hlt

/-- The index list `argsort()[::-1][:n]` is ordered by strictly decreasing
score, with tied scores in strictly decreasing (i.e. reversed) original
index order. -/
theorem argsort_desc_take_pairwise (scores : List ℚ) (n : ℕ) :
    ((npArgsortDesc scores).take n).Pairwise
      (fun i j => scores.getD j 0 < scores.getD i 0 ∨
        (scores.getD j 0 = scores.getD i 0 ∧ j < i)) := by
  refine List.Pairwise.sublist (List.take_sublist _ _) ?_
  unfold npArgsortDesc
  rw [List.pairwise_reverse, List.pairwise_map]
  have hstrict := insertionSort_asc_strict scores
  refine hstrict.imp_of_mem ?_
  intro p q hp hq hpq
  have hp' := mem_insertionSort_enum hp
  have hq' := mem_insertionSort_enum hq
  have hgp : scores.getD p.1 0 = p.2 := by
    rw [List.getD_eq_getElem?_getD, hp']
    rfl
  have hgq : scores.getD q.1 0 = q.2 := by
    rw [List.getD_eq_getElem?_getD, hq']
    rfl
  rcases hpq with h | ⟨h1, h2⟩
  · exact Or.inl (by rw [hgp, hgq]; exact h)
  · exact Or.inr ⟨by rw [hgp, hgq]; exact h1, h2⟩

/-- C6 counterexample: two candidates whose CrossEncoder scores tie.  The
code computes `ce_scores.argsort()[::-1][:top_n]`; reversing the ascending
argsort puts tied scores in REVERSED input order, so the second candidate
comes out first — the claim's stable tie order (input order) is violated,
at an input satisfying the claim's `top_n <= len(candidates)` premise. -/
theorem C6_counterexample :
    rerankStep [(cdoc0, 5), (cdoc1, 4)] [1, 1] 2 = [cdoc1, cdoc0] ∧
    [cdoc1, cdoc0] ≠ [cdoc0, cdoc1] ∧ 2 ≤ 2 := by
  refine ⟨?_, by decide, by decide⟩
  rfl

/-- C6 amended: `rerank` (the selection
`[candidates[i][0] for i in ce_scores.argsort()[::-1][:top_n]]`) returns at
most `top_n` items, every returned item is drawn from the input candidate
list (no fabrication), and its order is strictly decreasing in rerank
score with tied scores in REVERSED input order (not input order). -/
theorem C6_amended_rerank_bounded_no_fabrication_ties_reversed
    (candidates : List (Doc × ℚ)) (ce_scores : List ℚ) (top_n : ℕ)
    (hlen : ce_scores.length = candidates.length)
    (htop : top_n ≤ candidates.length) :
    (rerankStep candidates ce_scores top_n).length ≤ top_n ∧
    (∀ d ∈ rerankStep candidates ce_scores top_n, ∃ c ∈ candidates, d = c.1) ∧
    ((npArgsortDesc ce_scores).take top_n).Pairwise
      (fun i j => ce_scores.getD j 0 < ce_scores.getD i 0 ∨
        (ce_scores.getD j 0 = ce_scores.getD i 0 ∧ j < i)) := by
  refine ⟨?_, ?_, argsort_desc_take_pairwise ce_scores top_n⟩
  · unfold rerankStep
    rw [List.length_map]
    exact List.length_take_le _ _
  · intro d hd
    unfold rerankStep at hd
    rw [List.mem_map] at hd
    obtain ⟨i, hi, rfl⟩ := hd
    have hi' : i ∈ npArgsortDesc ce_scores := List.mem_of_mem_take hi
    have hlt : i < candidates.length := hlen ▸ mem_npArgsortDesc hi'
    have hg : candidates.getD i (dummyDoc, 0) = candidates.get ⟨i, hlt⟩ := by
      rw [List.getD_eq_getElem?_getD, List.getElem?_eq_getElem hlt]
      rfl
    exact ⟨candidates.getD i (dummyDoc, 0), by rw [hg]; exact List.get_mem _ _ hlt, rfl⟩

/-- Witness for the amended C6 at a concrete candidate list. -/
theorem C6_witness :
    (rerankStep [(cdoc0, (5 : ℚ)), (cdoc1, 4)] [2, 1] 2).length ≤ 2 ∧
    (∀ d ∈ rerankStep [(cdoc0, (5 : ℚ)), (cdoc1, 4)] [2, 1] 2,
      ∃ c ∈ [(cdoc0, (5 : ℚ)), (cdoc1, 4)], d = c.1) ∧
    ((npArgsortDesc [2, 1]).take 2).Pairwise
      (fun i j => List.getD [(2 : ℚ), 1] j 0 < List.getD [2, 1] i 0 ∨
        (List.getD [(2 : ℚ), 1] j 0 = List.getD [2, 1] i 0 ∧ j < i)) :=
  C6_amended_rerank_bounded_no_fabrication_ties_reversed
    [(cdoc0, 5), (cdoc1, 4)] [2, 1] 2 rfl (by decide)

/-- The accumulation loop of `build_index` retains exactly the records with
non-blank effective text, projected to `{id, title (default ""), text}`,
in input order. -/
theorem buildDocs_eq (corpus : List JsonObj) :
    buildDocs corpus =
      (corpus.filter (fun o => !pyBlank (effText o))).map
        (fun o => { id := o.id, title := o.title.getD "", text := effText o }) := by
  have h : ∀ (cs : List JsonObj) (acc : List Doc),
      cs.foldl
        (fun docs obj =>
          let text := effText obj
          if pyBlank text then docs
          else docs ++ [{ id := obj.id, title := obj.title.getD "", text := text }])
        acc =
      acc ++ (cs.filter (fun o => !pyBlank (effText o))).map
        (fun o => { id := o.id, title := o.title.getD "", text := effText o }) := by
    intro cs
    induction cs with
    | nil => intro acc; simp
    | cons o rest ih =>
      intro acc
      cases hb : pyBlank (effText o) with
      | false => simp [hb, ih, List.filter_cons]
      | true => simp [hb, ih, List.filter_cons]
  simpa [buildDocs] using h corpus []

/-- C5: round-trip law.  Loading the bundle written by `build_index` yields
exactly the BM25 model and the chunk list built in memory; the retained
chunks are the input records minus the blank-text ones, with `id`, `title`
(defaulted to `""`) and effective `text` preserved in order; the returned
count equals the number of retained records; and `retrieve` on the freshly
loaded pair coincides with `retrieve` on the pre-persistence pair for every
query and `top_k`.  (`pickle` round-tripping is modelled as the identity on
the serialised value.) -/
theorem C5_roundtrip_build_load_retrieve (log : ℚ → ℚ) (corpus : List JsonObj) :
    load_index (.blob (build_index log corpus).1) =
      .ok (BM25Okapi.build log ((buildDocs corpus).map (fun d => tokenize d.text)),
        buildDocs corpus) ∧
    buildDocs corpus =
      (corpus.filter (fun o => !pyBlank (effText o))).map
        (fun o => { id := o.id, title := o.title.getD "", text := effText o }) ∧
    (build_index log corpus).2 = (buildDocs corpus).length ∧
    (∀ (bm : BM25Okapi) (ds : List Doc) (q : String) (k : ℕ),
      load_index (.blob (build_index log corpus).1) = .ok (bm, ds) →
      retrieve q bm ds k =
        retrieve q
          (BM25Okapi.build log ((buildDocs corpus).map (fun d => tokenize d.text)))
          (buildDocs corpus) k) := by
  refine ⟨rfl, buildDocs_eq corpus, rfl, ?_⟩
  intro bm ds q k h
  rw [show load_index (.blob (build_index log corpus).1) =
      .ok (BM25Okapi.build log ((buildDocs corpus).map (fun d => tokenize d.text)),
        buildDocs corpus) from rfl] at h
  injection h with h5
  injection h5 with h6 h7
  rw [h6, h7]

/-- Witness for C5 at the concrete two-record corpus. -/
theorem C5_witness :
    load_index (.blob (build_index zeroLog corpusAB).1) =
      .ok (BM25Okapi.build zeroLog ((buildDocs corpusAB).map (fun d => tokenize d.text)),
        buildDocs corpusAB) ∧
    buildDocs corpusAB =
      (corpusAB.filter (fun o => !pyBlank (effText o))).map
        (fun o => { id := o.id, title := o.title.getD "", text := effText o }) ∧
    (build_index zeroLog corpusAB).2 = (buildDocs corpusAB).length ∧
    (∀ (bm : BM25Okapi) (ds : List Doc) (q : String) (k : ℕ),
      load_index (.blob (build_index zeroLog corpusAB).1) = .ok (bm, ds) →
      retrieve q bm ds k =
        retrieve q
          (BM25Okapi.build zeroLog ((buildDocs corpusAB).map (fun d => tokenize d.text)))
          (buildDocs corpusAB) k) :=
  C5_roundtrip_build_load_retrieve zeroLog corpusAB

/-- C4 counterexample: the context assembly applies no character budget.
A single gate-passing passage of 3501 characters yields a `context_block`
of length 3501 > 3500 (3500 = the system's configured character budget,
`MAX_TOTAL_CHARS`, which the code only ever applies to the streamed model
RESPONSE, never to the context block), in both the handlers/web_rex
assembly and the rag_pipeline assembly. -/
theorem C4_counterexample :
    3500 < (contextBlock [(longDoc, 5)] 2 5).length ∧
    3500 < (ragContext [longDoc]).length := by
  have h1 : contextBlock [(longDoc, 5)] 2 5 = longText := rfl
  have h2 : ragContext [longDoc] = longText := rfl
  have h3 : longText.length = 3501 := by
    show (List.replicate 3501 'a').length = 3501
    rw [List.length_replicate]
  rw [h1, h2, h3]
  exact ⟨by norm_num, by norm_num⟩

/-- C4 amended: the empty ranked list yields an empty `context_block` and
an empty used-chunk list (in both assemblies), but no character budget is
enforced: for every bound `n` there is a candidate list whose assembled
`context_block` is longer than `n`. -/
theorem C4_amended_no_char_budget_empty_ok (threshold : ℚ) (maxDocs n : ℕ) :
    contextBlock [] threshold maxDocs = "" ∧
    usedChunks [] threshold maxDocs = [] ∧
    ragContext [] = "" ∧
    ∃ results : List (Doc × ℚ), n < (contextBlock results 2 5).length := by
  refine ⟨rfl, rfl, rfl,
    ⟨[(⟨none, "", String.mk (List.replicate (n + 1) 'a')⟩, 2)], ?_⟩⟩
  rw [show contextBlock [(⟨none, "", String.mk (List.replicate (n + 1) 'a')⟩, 2)] 2 5 =
      String.mk (List.replicate (n + 1) 'a') from rfl]
  show n < (List.replicate (n + 1) 'a').length
  rw [List.length_replicate]
  exact Nat.lt_succ_self n

/-- C2 counterexample: the pipeline does NOT fail soft.  With the BM25
bundle present but the reranker checkpoint absent, `build_rag_prompt`
raises `FileNotFoundError` from `_ensure_loaded`; with the reranker present
but every scoring call raising, the exception escapes
`self._reranker.predict` uncaught.  In both cases the failure reaches the
caller instead of the claimed `candidates[:top_n]` soft output. -/
theorem C2_counterexample :
    buildRagPrompt envNoReranker 50 3 "" = .error .rerankerNotFound ∧
    buildRagPrompt envFailingReranker 50 3 "" =
      .error (.predictFailure "CUDA error") :=
  ⟨rfl, rfl⟩

/-- C2 amended: when the reranking model is unavailable or a scoring call
raises, `build_rag_prompt` propagates the failure to its caller (there is
no exception handler and no soft-degradation path): a missing reranker
checkpoint surfaces as the `FileNotFoundError` of `_ensure_loaded`, and an
exception from `predict` surfaces unchanged. -/
theorem C2_amended_rerank_failures_propagate
    (env : RagEnv) (docs : List Doc) (bm : BM25Okapi) (q : String) (K N : ℕ)
    (hb : env.bm25File = some (docs, bm)) :
    (env.ceFile = none → buildRagPrompt env K N q = .error .rerankerNotFound) ∧
    (∀ (ce : CEPredict) (msg : String), env.ceFile = some ce →
      ce ((ragCandidates docs bm K q).map (fun c => (q, c.1.text))) = .error msg →
      buildRagPrompt env K N q = .error (.predictFailure msg)) := by
  have hload : ∀ (ce : CEPredict), env.ceFile = some ce →
      ensureLoaded env = .ok (docs, bm, ce) := by
    intro ce hce
    unfold ensureLoaded
    rw [hb, hce]
  constructor
  · intro hce
    unfold buildRagPrompt ensureLoaded
    rw [hb, hce]
  · intro ce msg hce hfail
    unfold buildRagPrompt
    rw [hload ce hce]
    simp only []
    rw [hfail]

/-- Witness for the amended C2 at a concrete environment. -/
theorem C2_witness :
    (envNoReranker.ceFile = none →
      buildRagPrompt envNoReranker 50 3 "q" = .error .rerankerNotFound) ∧
    (∀ (ce : CEPredict) (msg : String), envNoReranker.ceFile = some ce →
      ce ((ragCandidates docsAB bmAB 50 "q").map (fun c => ("q", c.1.text))) =
        .error msg →
      buildRagPrompt envNoReranker 50 3 "q" = .error (.predictFailure msg)) :=
  C2_amended_rerank_failures_propagate envNoReranker docsAB bmAB "q" 50 3 rfl

/-- C10: `build_rag_prompt` applies no relevance gate.  Whenever its two
artifacts load and the CrossEncoder call returns scores — with no
hypothesis whatsoever on how low the lexical or rerank scores are — the
result is unconditionally the grounded prompt embedding the assembled
context of the top reranked passages; there is no threshold comparison
and no ungrounded fallback path. -/
theorem C10_no_gate_unconditional_grounding
    (env : RagEnv) (docs : List Doc) (bm : BM25Okapi) (ce : CEPredict)
    (K N : ℕ) (q : String) (ce_scores : List ℚ)
    (hb : env.bm25File = some (docs, bm)) (hc : env.ceFile = some ce)
    (hs : ce ((ragCandidates docs bm K q).map (fun c => (q, c.1.text))) =
      .ok ce_scores) :
    buildRagPrompt env K N q =
      .ok (groundedPrompt
            (ragContext (rerankStep (ragCandidates docs bm K q) ce_scores N)) q,
        ⟨docs.length, min K docs.length, N,
          (rerankStep (ragCandidates docs bm K q) ce_scores N).map (·.title),
          (ragContext (rerankStep (ragCandidates docs bm K q) ce_scores N)).take
            200⟩) := by
  have hload : ensureLoaded env = .ok (docs, bm, ce) := by
    unfold ensureLoaded
    rw [hb, hc]
  unfold buildRagPrompt
  rw [hload]
  simp only []
  rw [hs]

/-- Witness for C10 at a concrete environment whose scores are all equal
(and, with the all-zero lexical scores of the empty query, as low as the
score scale allows): the grounded prompt is still produced. -/
theorem C10_witness :
    buildRagPrompt envAB 50 3 "" =
      .ok (groundedPrompt
            (ragContext (rerankStep (ragCandidates docsAB bmAB 50 "") [1, 1] 3)) "",
        ⟨docsAB.length, min 50 docsAB.length, 3,
          (rerankStep (ragCandidates docsAB bmAB 50 "") [1, 1] 3).map (·.title),
          (ragContext (rerankStep (ragCandidates docsAB bmAB 50 "") [1, 1] 3)).take
            200⟩) :=
  C10_no_gate_unconditional_grounding envAB docsAB bmAB cePredictOnes
    50 3 "" [1, 1] rfl rfl rfl

/-- For the spec's two-record corpus every vocabulary term occurs in
exactly one of the two documents, so rank_bm25's idf
`log(N - n + 0.5) - log(n + 0.5) = log(1.5) - log(1.5)` vanishes for EVERY
choice of the logarithm function, and with it every lexical score of the
end-to-end query. -/
theorem get_scores_AB (log : ℚ → ℚ) :
    (bmABWith log).get_scores (tokenize "how do I store water") = [0, 0] := by
  have hd : docsAB.map (fun d => tokenize d.text) =
      [["store", "water", "in", "clean", "containers"],
       ["tie", "a", "bowline", "knot"]] := by decide
  have ht : tokenize "how do I store water" =
      ["how", "do", "i", "store", "water"] := by decide
  unfold bmABWith
  rw [hd, ht]
  simp only [BM25Okapi.build, BM25Okapi.get_scores, BM25Okapi.termScore]
  simp +decide only [List.mem_dedup, List.countP_cons, List.countP_nil,
    List.count_cons, List.count_nil, List.contains, List.zip, List.zipWith,
    List.map, List.sum_cons, List.sum_nil, List.mem_cons, List.mem_nil_iff,
    List.flatten]
  norm_num [lt_self_iff_false, sub_self]

/-- C9 counterexample: on the spec's corpus and query, `retrieve` with
`top_k = 2` does rank chunk "a" above chunk "b" (stable tie on insertion
order), but chunk "a"'s lexical score is exactly 0 — NOT strictly
positive.  (By `get_scores_AB` the scores are 0 for every logarithm
function, in particular for `math.log`.) -/
theorem C9_counterexample :
    retrieve "how do I store water" bmAB docsAB 2 =
      [(⟨some "a", "", "store water in clean containers"⟩, 0),
       (⟨some "b", "", "tie a bowline knot"⟩, 0)] ∧
    bestScore (retrieve "how do I store water" bmAB docsAB 2) = 0 ∧
    ¬ (0 < bestScore (retrieve "how do I store water" bmAB docsAB 2)) := by
  have h : retrieve "how do I store water" bmAB docsAB 2 =
      [(⟨some "a", "", "store water in clean containers"⟩, 0),
       (⟨some "b", "", "tie a bowline knot"⟩, 0)] := by
    unfold retrieve retrieveIdx bmAB
    rw [get_scores_AB zeroLog]
    decide
  refine ⟨h, ?_, ?_⟩ <;> rw [h] <;> decide

/-- C9 amended: for every logarithm function (hence for `math.log`),
`retrieve` on the spec's two-chunk corpus with `top_k = 2` returns chunk
"a" ranked above chunk "b", and both lexical scores are exactly 0 (chunk
"a"'s score is zero, not strictly positive, because every term occurs in
exactly half the two-document corpus, where BM25's idf vanishes). -/
theorem C9_amended_a_first_score_zero (log : ℚ → ℚ) :
    retrieve "how do I store water" (bmABWith log) docsAB 2 =
      [(⟨some "a", "", "store water in clean containers"⟩, 0),
       (⟨some "b", "", "tie a bowline knot"⟩, 0)] := by
  unfold retrieve retrieveIdx
  rw [get_scores_AB log]
  decide
